import Mathlib

/-!
Shallow embedding of `src/server.js` (a minimal Express blog backend):
post CRUD over one JSON file, JWT-style login/auth, and multipart upload.

Conventions of the embedding:
* The persisted state is the content of `data/posts.json`, a `List Post`.
* Each store handler returns the HTTP response, the file content after the
  handler, and the trace of file operations (`readPosts` / `savePosts`)
  it performed, in order.
* `Date.now()` and `new Date().toISOString()` are passed in as the
  parameters `now : Nat` (milliseconds) and `nowISO : String`.
* The `:id` route parameter is modelled by its numeric value: the source
  compares `p.id == req.params.id` with JavaScript loose equality, which
  holds exactly when the parameter string's numeric value equals `p.id`
  (all stored ids are numbers produced by `Date.now()`).
-/

/-- A blog post as stored in `data/posts.json`. `title` and `content` are
`Option String` because `PUT` assigns `req.body.title` / `req.body.content`
unconditionally, and those may be `undefined`; `updatedAt` is absent until
the first update. -/
structure Post where
  id : Nat
  title : Option String
  content : Option String
  createdAt : String
  updatedAt : Option String
deriving DecidableEq, Repr

/-- The JSON bodies the server can send. -/
inductive ApiBody where
  | msgObj (msg : String)
  | tokenObj (token : String)
  | postObj (post : Post)
  | postList (posts : List Post)
  | okObj
  | uploadObj (url : String) (filename : String)
deriving DecidableEq, Repr

/-- An HTTP response: status code and optional JSON body.
`res.status(n).end()` is `⟨n, none⟩`; `res.json(x)` is `⟨200, some x⟩`. -/
structure Response where
  status : Nat
  body : Option ApiBody
deriving DecidableEq, Repr

/-- A file operation on `data/posts.json`: `readE` is a `readPosts()` call,
`writeE` a `savePosts(...)` call. -/
inductive Eff where
  | readE
  | writeE
deriving DecidableEq, Repr

/-- Result of running a post-store handler: the response, the file content
after the handler, and the file operations performed, in order. -/
structure HandlerOut where
  resp : Response
  posts : List Post
  effs : List Eff
deriving DecidableEq, Repr

/-- `const ADMIN_PASSWORD = "666"` (src/server.js line 26). -/
def ADMIN_PASSWORD : String := "666"

/-- `const JWT_SECRET = "blog-secret-key"` (src/server.js line 27). -/
def JWT_SECRET : String := "blog-secret-key"

/-- The body of a post request, `{ title, content }`; absent fields are
`none` (JavaScript `undefined`). -/
structure ReqBody where
  title : Option String
  content : Option String
deriving DecidableEq, Repr

/-- JavaScript `!title` for a string-or-undefined value: truthy exactly for
a present, non-empty string. -/
def titleFalsy : Option String → Bool
  | none => true
  | some s => s == ""

/-- Stable insertion of a post into a list sorted by `id` descending:
the inserted post goes before any post of equal `id`. -/
def insertDesc (p : Post) : List Post → List Post
  | [] => [p]
  | q :: qs => if p.id < q.id then q :: insertDesc p qs else p :: q :: qs

/-- `posts.sort((a, b) => b.id - a.id)` (src/server.js line 96): the
ES2019 stable sort by `id` descending, modelled as stable insertion sort. -/
def sortByIdDesc : List Post → List Post
  | [] => []
  | p :: ps => insertDesc p (sortByIdDesc ps)

/-- `GET /api/posts` (src/server.js lines 95-98): read, sort by id
descending, return the sorted array; the file is not written. -/
def getPosts (posts : List Post) : HandlerOut :=
  ⟨⟨200, some (.postList (sortByIdDesc posts))⟩, posts, [.readE]⟩

/-- `GET /api/posts/:id` (src/server.js lines 101-105): find the first
post with matching id; `res.status(404).end()` (empty body) if none. -/
def getPost (pid : Nat) (posts : List Post) : HandlerOut :=
  match posts.find? (fun p => p.id == pid) with
  | none => ⟨⟨404, none⟩, posts, [.readE]⟩
  | some p => ⟨⟨200, some (.postObj p)⟩, posts, [.readE]⟩

/-- `POST /api/posts` (src/server.js lines 108-125): reject a falsy title
with 400 `{msg:"缺少标题"}` before touching the file; otherwise build
`{id: Date.now(), title, content, createdAt}` (no `updatedAt`), `unshift`
it onto the collection, save, and return it. -/
def createPost (now : Nat) (nowISO : String) (body : ReqBody) (posts : List Post) :
    HandlerOut :=
  if titleFalsy body.title then
    ⟨⟨400, some (.msgObj "缺少标题")⟩, posts, []⟩
  else
    let post : Post := ⟨now, body.title, body.content, nowISO, none⟩
    ⟨⟨200, some (.postObj post)⟩, post :: posts, [.readE, .writeE]⟩

/-- The mutation `PUT /api/posts/:id` performs on the matched post:
`title` and `content` are overwritten with the request-body values
(possibly `undefined`), `updatedAt` is set; `id` and `createdAt` are not
touched. -/
def applyUpdate (p : Post) (body : ReqBody) (nowISO : String) : Post :=
  ⟨p.id, body.title, body.content, p.createdAt, some nowISO⟩

/-- `posts.findIndex(p => p.id == id)` followed by the in-place mutation of
that element (src/server.js lines 130-135): returns the updated post and
the updated collection, or `none` when no post matches. -/
def updateInList (pid : Nat) (body : ReqBody) (nowISO : String) :
    List Post → Option (Post × List Post)
  | [] => none
  | p :: ps =>
    if p.id == pid then
      let upd := applyUpdate p body nowISO
      some (upd, upd :: ps)
    else
      match updateInList pid body nowISO ps with
      | none => none
      | some (q, ps2) => some (q, p :: ps2)

/-- `PUT /api/posts/:id` (src/server.js lines 128-139): read; 404 with an
empty body when no post matches; otherwise mutate the matched post,
save, and return it. -/
def updatePost (pid : Nat) (body : ReqBody) (nowISO : String) (posts : List Post) :
    HandlerOut :=
  match updateInList pid body nowISO posts with
  | none => ⟨⟨404, none⟩, posts, [.readE]⟩
  | some (q, posts2) => ⟨⟨200, some (.postObj q)⟩, posts2, [.readE, .writeE]⟩

/-- `DELETE /api/posts/:id` (src/server.js lines 142-146): filter out every
matching post, always save, always answer `{ok: true}`. -/
def deletePost (pid : Nat) (posts : List Post) : HandlerOut :=
  ⟨⟨200, some .okObj⟩, posts.filter (fun p => p.id != pid), [.readE, .writeE]⟩

/-- The fallback route `app.use((_, res) => res.status(404).json({msg:
"API Not Found"}))` (src/server.js line 181). -/
def notFoundHandler : Response := ⟨404, some (.msgObj "API Not Found")⟩

/-- Decimal digit character, as in a number's serialization. -/
def digitChar : Nat → Char
  | 0 => '0' | 1 => '1' | 2 => '2' | 3 => '3' | 4 => '4'
  | 5 => '5' | 6 => '6' | 7 => '7' | 8 => '8' | _ => '9'

/-- Little-endian decimal digits of `n` (fuel-structural so that the kernel
can evaluate it); empty for `n = 0`. -/
def encNatAux : Nat → Nat → List Char
  | 0, _ => []
  | fuel + 1, n => if n = 0 then [] else digitChar (n % 10) :: encNatAux fuel (n / 10)

/-- Digit-string serialization of a natural number used inside the
modelled token encoding. -/
def encNat (n : Nat) : List Char := if n = 0 then ['0'] else encNatAux n n

/-- Inverse of `encNat`: read a little-endian digit string back. -/
def decNat : List Char → Nat
  | [] => 0
  | c :: cs => (c.toNat - 48) + 10 * decNat cs

/-- Claim-tag of a modelled token signed with `secret`: the payload
`{role: "admin"}` and the signing secret, ahead of the expiry field. -/
def TOKEN_TAG (secret : String) : List Char :=
  ("jwt.admin." ++ secret ++ ".").data

/-- Model of `jwt.sign({role: "admin"}, secret, {expiresIn: "24h"})`
(jsonwebtoken library, used at src/server.js lines 85-87): the issued
token string determines the role claim, the signing secret and the expiry
instant `exp` (milliseconds); the caller passes `exp = now + 86400000`. -/
def signAdminToken (secret : String) (exp : Nat) : String :=
  String.mk (TOKEN_TAG secret ++ encNat exp)

/-- Model of the decoding half of `jwt.verify(token, secret)`: a string is
a token signed with `secret` when it starts with that secret's tag, and
its expiry is the trailing digit field. -/
def decodeAdminExp (secret : String) (token : String) : Option Nat :=
  if (TOKEN_TAG secret).isPrefixOf token.data then
    some (decNat (token.data.drop (TOKEN_TAG secret).length))
  else none

/-- Model of `jwt.verify(token, JWT_SECRET)` (src/server.js line 69):
succeeds exactly when the token was signed with `secret` and has not
expired at the current instant `now`. -/
def verifyToken (secret : String) (token : String) (now : Nat) : Bool :=
  match decodeAdminExp secret token with
  | some exp => decide (now < exp)
  | none => false

/-- `"Bearer "`, the string removed from the authorization header. -/
def BEARER_CHARS : List Char := "Bearer ".data

/-- JavaScript `str.replace("Bearer ", "")` (src/server.js line 65): with a
string pattern, `replace` rewrites only the first occurrence and leaves
the string unchanged when the pattern does not occur. -/
def stripBearerFirst : List Char → List Char
  | [] => []
  | c :: cs =>
    if BEARER_CHARS.isPrefixOf (c :: cs) then (c :: cs).drop BEARER_CHARS.length
    else c :: stripBearerFirst cs

/-- `authMiddleware` (src/server.js lines 64-74). `header` is the raw
`req.headers.authorization` (`none` when absent). `none` as result means
`next()` was called (the request proceeds); `some r` means the request
was blocked with response `r`. -/
def authMiddleware (header : Option String) (now : Nat) : Option Response :=
  match header with
  | none => some ⟨401, some (.msgObj "未登录")⟩
  | some h =>
    let token := String.mk (stripBearerFirst h.data)
    if token = "" then some ⟨401, some (.msgObj "未登录")⟩
    else if verifyToken JWT_SECRET token now then none
    else some ⟨401, some (.msgObj "登录失效")⟩

/-- `POST /api/login` (src/server.js lines 78-90): strict comparison with
the fixed admin password; 401 `{msg:"密码错误"}` on mismatch, otherwise a
token with role claim `admin` expiring 24 hours (86400000 ms) later. -/
def login (password : Option String) (now : Nat) : Response :=
  if password ≠ some ADMIN_PASSWORD then ⟨401, some (.msgObj "密码错误")⟩
  else ⟨200, some (.tokenObj (signAdminToken JWT_SECRET (now + 86400000)))⟩

/-- `path.extname` for a bare filename: the suffix starting at the last
dot, empty when there is no dot or the only dot is the leading character. -/
def extname (s : String) : String :=
  let cs := s.data
  match cs.reverse.findIdx? (fun c => c == '.') with
  | none => ""
  | some k => if k + 1 = cs.length then "" else String.mk (cs.drop (cs.length - 1 - k))

/-- Hexadecimal digit character, as produced by `toString(16)`. -/
def hexDigitChar : Nat → Char
  | 0 => '0' | 1 => '1' | 2 => '2' | 3 => '3' | 4 => '4'
  | 5 => '5' | 6 => '6' | 7 => '7' | 8 => '8' | 9 => '9'
  | 10 => 'a' | 11 => 'b' | 12 => 'c' | 13 => 'd' | 14 => 'e' | _ => 'f'

/-- The 13 hexadecimal fraction digits of the double `r / 2 ^ 52`,
most significant first. -/
def hex13 (r : Nat) : List Char :=
  (List.range 13).map (fun j => hexDigitChar (r / 16 ^ (12 - j) % 16))

/-- Model of `Math.random().toString(16).slice(2)` (src/server.js
line 155): `Math.random()` yields a 52-bit-mantissa double `r / 2 ^ 52`,
whose radix-16 serialization is `"0."` followed by its fraction digits
with trailing zeros stripped; `slice(2)` drops the `"0."`. At most 13 hex
digits, and empty when `r = 0` (then the serialization is just `"0"`). -/
def fracHex (r : Nat) : List Char :=
  ((hex13 r).reverse.dropWhile (fun c => c == '0')).reverse

/-- The stored filename built by the multer `storage.filename` callback
(src/server.js lines 153-157):
`Date.now() + "-" + Math.random().toString(16).slice(2) + ext`. -/
def uploadFilename (now r : Nat) (originalname : String) : String :=
  toString now ++ "-" ++ String.mk (fracHex r) ++ extname originalname

/-- The multipart file attached to an upload request; only its original
name matters to the response. -/
structure UploadedFile where
  originalname : String
deriving DecidableEq, Repr

/-- `POST /api/upload` (src/server.js lines 166-177): 400 with an empty
body (`res.status(400).end()`) when no file field is present, otherwise
`{url: "/uploads/" + filename, filename: originalname}` where `filename`
is the stored name chosen by `storage.filename` for the request's
`Date.now()` value `now` and `Math.random()` mantissa `r`. -/
def uploadHandler (file : Option UploadedFile) (now r : Nat) : Response :=
  match file with
  | none => ⟨400, none⟩
  | some f =>
    ⟨200, some (.uploadObj ("/uploads/" ++ uploadFilename now r f.originalname)
      f.originalname)⟩

/-- The shape the spec ascribes to the random component of an upload
filename: a 64-bit hexadecimal string, i.e. 16 hex digits. Stated from
the spec's words, for comparison with `fracHex`. -/
def specRandomHex64 (s : String) : Prop :=
  s.length = 16 ∧ s.data.all (fun c => c.isDigit || ('a' ≤ c && c ≤ 'f')) = true

/-- A sample stored post, used to instantiate theorems at concrete inputs. -/
def samplePost : Post := ⟨100, some "hello", some "world", "2024-01-01T00:00:00.000Z", none⟩

/-- A second sample stored post with a different id. -/
def samplePost2 : Post := ⟨50, some "old", none, "2023-12-31T00:00:00.000Z", some "2024"⟩

/-! ### Helper lemmas: digit serialization and the modelled JWT -/

theorem digitChar_range (d : Nat) : 48 ≤ (digitChar d).toNat ∧ (digitChar d).toNat ≤ 57 := by
  unfold digitChar
  split <;> decide

theorem digitChar_toNat_of_lt : ∀ d, d < 10 → (digitChar d).toNat = 48 + d := by decide

theorem decNat_encNatAux : ∀ fuel n, n ≤ fuel → decNat (encNatAux fuel n) = n := by
  intro fuel
  induction fuel with
  | zero =>
    intro n hn
    interval_cases n
    rfl
  | succ fuel ih =>
    intro n hn
    by_cases hz : n = 0
    · subst hz
      simp [encNatAux, decNat]
    · have hdiv : n / 10 ≤ fuel := by
        have h1 : n / 10 < n := Nat.div_lt_self (Nat.pos_of_ne_zero hz) (by decide)
        omega
      have hmod : n % 10 < 10 := Nat.mod_lt _ (by decide)
      simp only [encNatAux, hz, if_false, decNat, ih _ hdiv,
        digitChar_toNat_of_lt _ hmod]
      omega

theorem decNat_encNat (n : Nat) : decNat (encNat n) = n := by
  by_cases hz : n = 0
  · subst hz
    decide
  · simp only [encNat, hz, if_false]
    exact decNat_encNatAux n n (Nat.le_refl n)

theorem encNatAux_digits : ∀ fuel n c, c ∈ encNatAux fuel n →
    48 ≤ c.toNat ∧ c.toNat ≤ 57 := by
  intro fuel
  induction fuel with
  | zero => intro n c hc; simp [encNatAux] at hc
  | succ fuel ih =>
    intro n c hc
    by_cases hz : n = 0
    · simp [encNatAux, hz] at hc
    · simp only [encNatAux, hz, if_false, List.mem_cons] at hc
      rcases hc with hc | hc
      · subst hc; exact digitChar_range _
      · exact ih _ _ hc

theorem encNat_digits (n : Nat) (c : Char) (hc : c ∈ encNat n) :
    48 ≤ c.toNat ∧ c.toNat ≤ 57 := by
  by_cases hz : n = 0
  · subst hz
    simp [encNat] at hc
    subst hc
    decide
  · simp only [encNat, hz, if_false] at hc
    exact encNatAux_digits n n c hc

theorem decodeAdminExp_sign (secret : String) (exp : Nat) :
    decodeAdminExp secret (signAdminToken secret exp) = some exp := by
  simp only [decodeAdminExp, signAdminToken]
  rw [if_pos]
  · rw [List.drop_left, decNat_encNat]
  · exact List.isPrefixOf_iff_prefix.mpr (List.prefix_append _ _)

theorem verifyToken_sign (secret : String) (exp now : Nat) :
    verifyToken secret (signAdminToken secret exp) now = decide (now < exp) := by
  simp [verifyToken, decodeAdminExp_sign]

/-! ### Helper lemmas: `"Bearer "` stripping and `authMiddleware` -/

theorem stripBearerFirst_bearer_append (cs : List Char) :
    stripBearerFirst (BEARER_CHARS ++ cs) = cs := by
  rw [show BEARER_CHARS ++ cs = 'B' :: ('e' :: ('a' :: ('r' :: ('e' :: ('r' :: (' ' :: cs))))))
    from rfl]
  rw [stripBearerFirst]
  rw [if_pos]
  · rfl
  · exact List.isPrefixOf_iff_prefix.mpr (List.prefix_append BEARER_CHARS cs)

theorem bearer_isPrefixOf_false {c : Char} (hne : c ≠ 'B') (cs : List Char) :
    BEARER_CHARS.isPrefixOf (c :: cs) = false := by
  show (('B' == c) && ("earer ".data).isPrefixOf cs) = false
  have h1 : ('B' == c) = false := by
    simp [Ne.symm hne]
  rw [h1, Bool.false_and]

theorem stripBearerFirst_of_not_B {cs : List Char} (h : 'B' ∉ cs) :
    stripBearerFirst cs = cs := by
  induction cs with
  | nil => rfl
  | cons c cs ih =>
    simp only [List.mem_cons, not_or] at h
    have hfalse : BEARER_CHARS.isPrefixOf (c :: cs) = false :=
      bearer_isPrefixOf_false (fun hc => h.1 hc.symm) cs
    rw [stripBearerFirst, hfalse]
    simp [ih h.2]

theorem signAdminToken_no_B (exp : Nat) : 'B' ∉ (signAdminToken JWT_SECRET exp).data := by
  rw [show (signAdminToken JWT_SECRET exp).data
    = TOKEN_TAG JWT_SECRET ++ encNat exp from rfl]
  rw [List.mem_append]
  rintro (h | h)
  · revert h
    decide
  · have := (encNat_digits exp 'B' h).2
    revert this
    decide

theorem signAdminToken_ne_empty (exp : Nat) : signAdminToken JWT_SECRET exp ≠ "" := by
  intro h
  have hd : (signAdminToken JWT_SECRET exp).data = [] := by rw [h]
  rw [show (signAdminToken JWT_SECRET exp).data
    = TOKEN_TAG JWT_SECRET ++ encNat exp from rfl] at hd
  rcases List.append_eq_nil.mp hd with ⟨h1, _⟩
  revert h1
  decide

theorem authMiddleware_raw_token (exp now : Nat) (h : now < exp) :
    authMiddleware (some (signAdminToken JWT_SECRET exp)) now = none := by
  have hstrip : stripBearerFirst (signAdminToken JWT_SECRET exp).data
      = (signAdminToken JWT_SECRET exp).data :=
    stripBearerFirst_of_not_B (signAdminToken_no_B exp)
  simp only [authMiddleware, hstrip]
  rw [show String.mk (signAdminToken JWT_SECRET exp).data
    = signAdminToken JWT_SECRET exp from rfl]
  rw [if_neg (signAdminToken_ne_empty exp), verifyToken_sign, if_pos]
  simpa using h

theorem authMiddleware_bearer_token (exp now : Nat) (h : now < exp) :
    authMiddleware (some ("Bearer " ++ signAdminToken JWT_SECRET exp)) now = none := by
  simp only [authMiddleware]
  rw [String.data_append,
    show "Bearer ".data = BEARER_CHARS from rfl,
    stripBearerFirst_bearer_append,
    show String.mk (signAdminToken JWT_SECRET exp).data
      = signAdminToken JWT_SECRET exp from rfl]
  rw [if_neg (signAdminToken_ne_empty exp), verifyToken_sign, if_pos]
  simpa using h

theorem notJ_isPrefixOf_false {c : Char} (hne : c ≠ 'j') (cs : List Char) :
    (TOKEN_TAG JWT_SECRET).isPrefixOf (c :: cs) = false := by
  show (('j' == c) && ("wt.admin.blog-secret-key.".data).isPrefixOf cs) = false
  have h1 : ('j' == c) = false := by
    simp [Ne.symm hne]
  rw [h1, Bool.false_and]

theorem verifyToken_head_ne (token : String) (now : Nat) (c : Char) (rest : List Char)
    (hdata : token.data = c :: rest) (hne : c ≠ 'j') :
    verifyToken JWT_SECRET token now = false := by
  simp only [verifyToken, decodeAdminExp, hdata, notJ_isPrefixOf_false hne]
  simp

/-! ### Helper lemmas: the descending stable sort -/

theorem mem_insertDesc {q p : Post} {l : List Post} :
    q ∈ insertDesc p l ↔ q = p ∨ q ∈ l := by
  induction l with
  | nil => simp [insertDesc]
  | cons r rs ih =>
    rw [insertDesc]
    split
    · simp only [List.mem_cons, ih]
      tauto
    · simp only [List.mem_cons]

theorem mem_sortByIdDesc {q : Post} {l : List Post} : q ∈ sortByIdDesc l ↔ q ∈ l := by
  induction l with
  | nil => simp [sortByIdDesc]
  | cons p ps ih =>
    rw [sortByIdDesc, mem_insertDesc]
    simp [ih]

theorem sortByIdDesc_cons_of_max {p : Post} {l : List Post}
    (h : ∀ q ∈ l, q.id ≤ p.id) :
    sortByIdDesc (p :: l) = p :: sortByIdDesc l := by
  rw [sortByIdDesc]
  cases hs : sortByIdDesc l with
  | nil => rfl
  | cons q qs =>
    rw [insertDesc, if_neg]
    have hq : q ∈ l := mem_sortByIdDesc.mp (hs ▸ List.mem_cons_self q qs)
    exact Nat.not_lt.mpr (h q hq)

/-! ### Helper lemmas: the update handler -/

theorem updateInList_eq_none {pid : Nat} {body : ReqBody} {iso : String} {posts : List Post}
    (h : ∀ p ∈ posts, p.id ≠ pid) :
    updateInList pid body iso posts = none := by
  induction posts with
  | nil => rfl
  | cons p ps ih =>
    rw [updateInList, if_neg, ih (fun q hq => h q (List.mem_cons_of_mem p hq))]
    simp [h p (List.mem_cons_self p ps)]

theorem updateInList_spec {pid : Nat} {posts : List Post}
    (h : ∃ p ∈ posts, p.id = pid) :
    ∃ i old, posts[i]? = some old ∧ old.id = pid
      ∧ (∀ j, j < i → ∀ q, posts[j]? = some q → q.id ≠ pid)
      ∧ ∀ body iso, updateInList pid body iso posts
          = some (applyUpdate old body iso, posts.set i (applyUpdate old body iso)) := by
  induction posts with
  | nil => simp at h
  | cons p ps ih =>
    by_cases hp : p.id = pid
    · refine ⟨0, p, by simp, hp, ?_, ?_⟩
      · intro j hj
        exact absurd hj (Nat.not_lt_zero j)
      · intro body iso
        rw [updateInList, if_pos (by simp [hp])]
        rfl
    · have h' : ∃ q ∈ ps, q.id = pid := by
        obtain ⟨q, hq, hqid⟩ := h
        rcases List.mem_cons.mp hq with rfl | hq'
        · exact absurd hqid hp
        · exact ⟨q, hq', hqid⟩
      obtain ⟨i, old, h1, h2, h3, h4⟩ := ih h'
      refine ⟨i + 1, old, by simpa using h1, h2, ?_, ?_⟩
      · intro j hj q hq
        cases j with
        | zero =>
          simp only [List.getElem?_cons_zero, Option.some.injEq] at hq
          rw [← hq]
          exact hp
        | succ j' =>
          rw [List.getElem?_cons_succ] at hq
          exact h3 j' (Nat.lt_of_succ_lt_succ hj) q hq
      · intro body iso
        rw [updateInList, if_neg (by simp [hp]), h4 body iso]
        simp [List.set_cons_succ]

/-! ### Claim theorems -/

/-- C1: for every request body with a non-empty title, create appends a new
post `{id = now, title, content, createdAt = nowISO}` with no `updatedAt`
at the front of the stored collection, persists it (read then write),
returns that post, and — provided every pre-existing id is at most the
creation time — the new post is the first element of a subsequent list
call, which sorts by id descending. -/
theorem C1_create_prepends_and_lists_first (now : Nat) (nowISO title : String)
    (content : Option String) (posts : List Post)
    (htitle : title ≠ "") (hids : ∀ p ∈ posts, p.id ≤ now) :
    createPost now nowISO ⟨some title, content⟩ posts
      = ⟨⟨200, some (.postObj ⟨now, some title, content, nowISO, none⟩)⟩,
          ⟨now, some title, content, nowISO, none⟩ :: posts, [.readE, .writeE]⟩
    ∧ (getPosts (⟨now, some title, content, nowISO, none⟩ :: posts)).resp.body
        = some (.postList (⟨now, some title, content, nowISO, none⟩ :: sortByIdDesc posts)) := by
  have hfalse : titleFalsy (some title) = false := by
    simp [titleFalsy, htitle]
  constructor
  · simp [createPost, hfalse]
  · have hsort := sortByIdDesc_cons_of_max
      (p := ⟨now, some title, content, nowISO, none⟩) (l := posts) hids
    simp [getPosts, hsort]

/-- Witness for C1 at a concrete input. -/
theorem C1_witness :
    createPost 200 "2024-06-01T00:00:00.000Z" ⟨some "Hello", none⟩ [samplePost]
      = ⟨⟨200, some (.postObj ⟨200, some "Hello", none, "2024-06-01T00:00:00.000Z", none⟩)⟩,
          ⟨200, some "Hello", none, "2024-06-01T00:00:00.000Z", none⟩ :: [samplePost],
          [.readE, .writeE]⟩
    ∧ (getPosts (⟨200, some "Hello", none, "2024-06-01T00:00:00.000Z", none⟩
          :: [samplePost])).resp.body
        = some (.postList (⟨200, some "Hello", none, "2024-06-01T00:00:00.000Z", none⟩
            :: sortByIdDesc [samplePost])) :=
  C1_create_prepends_and_lists_first 200 "2024-06-01T00:00:00.000Z" "Hello" none [samplePost]
    (by decide) (by decide)

/-- C5: create with an empty or missing title answers 400
`{msg:"缺少标题"}`, leaves the stored collection exactly as it was, and
performs no file operation at all (no read-modify-write on the error
path). -/
theorem C5_create_invalid_title (now : Nat) (nowISO : String) (t c : Option String)
    (posts : List Post) (h : titleFalsy t = true) :
    createPost now nowISO ⟨t, c⟩ posts = ⟨⟨400, some (.msgObj "缺少标题")⟩, posts, []⟩ := by
  simp [createPost, h]

/-- Witness for C5 at a concrete input (empty title). -/
theorem C5_witness :
    createPost 300 "2024-06-01T00:00:00.000Z" ⟨some "", some "body"⟩ [samplePost]
      = ⟨⟨400, some (.msgObj "缺少标题")⟩, [samplePost], []⟩ :=
  C5_create_invalid_title 300 "2024-06-01T00:00:00.000Z" (some "") (some "body") [samplePost]
    (by decide)

/-- C6: update on an id matching no stored post answers 404 with an empty
body and leaves the stored collection unchanged (the file is read but not
written). -/
theorem C6_update_missing_404 (pid : Nat) (body : ReqBody) (nowISO : String)
    (posts : List Post) (h : ∀ p ∈ posts, p.id ≠ pid) :
    updatePost pid body nowISO posts = ⟨⟨404, none⟩, posts, [.readE]⟩ := by
  simp only [updatePost, updateInList_eq_none h]

/-- Witness for C6 at a concrete input. -/
theorem C6_witness :
    updatePost 7 ⟨some "t", none⟩ "2024-06-01T00:00:00.000Z" [samplePost, samplePost2]
      = ⟨⟨404, none⟩, [samplePost, samplePost2], [.readE]⟩ :=
  C6_update_missing_404 7 ⟨some "t", none⟩ "2024-06-01T00:00:00.000Z"
    [samplePost, samplePost2] (by decide)

/-- C7: delete always reports success `{ok: true}`, removes every post
whose id matches, leaves the collection's value unchanged when none
matches, and is idempotent: a second delete of the same id produces the
same stored collection and the same response. -/
theorem C7_delete_idempotent (pid : Nat) (posts : List Post) :
    (deletePost pid posts).resp = ⟨200, some .okObj⟩
    ∧ (deletePost pid posts).posts = posts.filter (fun p => p.id != pid)
    ∧ (∀ p ∈ (deletePost pid posts).posts, p.id ≠ pid)
    ∧ ((∀ p ∈ posts, p.id ≠ pid) → (deletePost pid posts).posts = posts)
    ∧ deletePost pid ((deletePost pid posts).posts) = deletePost pid posts := by
  refine ⟨rfl, rfl, ?_, ?_, ?_⟩
  · intro p hp
    simp only [deletePost, List.mem_filter] at hp
    simpa using hp.2
  · intro h
    simp only [deletePost]
    exact List.filter_eq_self.mpr (fun p hp => by simpa using h p hp)
  · simp only [deletePost, List.filter_filter]
    rw [show (fun p : Post => (p.id != pid) && (p.id != pid)) = fun p => p.id != pid
      from funext (fun p => Bool.and_self _)]

/-- Witness for C7 at a concrete input. -/
theorem C7_witness :
    deletePost 100 ((deletePost 100 [samplePost, samplePost2]).posts)
      = deletePost 100 [samplePost, samplePost2] :=
  (C7_delete_idempotent 100 [samplePost, samplePost2]).2.2.2.2

/-- C4: for every stored collection and every id matching an existing
post, update changes only the first matching post's `title`, `content`
and `updatedAt` fields, keeps its `id` and `createdAt` and every other
post unchanged, persists the result (read then write), and returns the
updated post. -/
theorem C4_update_frame (pid : Nat) (body : ReqBody) (nowISO : String)
    (posts : List Post) (h : ∃ p ∈ posts, p.id = pid) :
    ∃ i old, posts[i]? = some old ∧ old.id = pid
      ∧ (∀ j, j < i → ∀ q, posts[j]? = some q → q.id ≠ pid)
      ∧ (applyUpdate old body nowISO).id = old.id
      ∧ (applyUpdate old body nowISO).createdAt = old.createdAt
      ∧ (applyUpdate old body nowISO).title = body.title
      ∧ (applyUpdate old body nowISO).content = body.content
      ∧ (applyUpdate old body nowISO).updatedAt = some nowISO
      ∧ updatePost pid body nowISO posts
          = ⟨⟨200, some (.postObj (applyUpdate old body nowISO))⟩,
              posts.set i (applyUpdate old body nowISO), [.readE, .writeE]⟩
      ∧ (∀ j, j ≠ i → (posts.set i (applyUpdate old body nowISO))[j]? = posts[j]?) := by
  obtain ⟨i, old, h1, h2, h3, h4⟩ := updateInList_spec h
  refine ⟨i, old, h1, h2, h3, rfl, rfl, rfl, rfl, rfl, ?_, ?_⟩
  · simp only [updatePost, h4 body nowISO]
  · intro j hj
    exact List.getElem?_set_ne (Ne.symm hj)

/-- Witness for C4 at a concrete input. -/
theorem C4_witness :
    updatePost 100 ⟨some "new", some "c"⟩ "2024-07-01T00:00:00.000Z" [samplePost, samplePost2]
      = ⟨⟨200, some (.postObj ⟨100, some "new", some "c", "2024-01-01T00:00:00.000Z",
            some "2024-07-01T00:00:00.000Z"⟩)⟩,
          [⟨100, some "new", some "c", "2024-01-01T00:00:00.000Z",
            some "2024-07-01T00:00:00.000Z"⟩, samplePost2],
          [.readE, .writeE]⟩ := by
  have h := C4_update_frame 100 ⟨some "new", some "c"⟩ "2024-07-01T00:00:00.000Z"
    [samplePost, samplePost2] ⟨samplePost, by decide⟩
  decide

/-- C10: update overwrites `title` and `content` with the request-body
values unconditionally: a body omitting both replaces them with `none`
(JavaScript `undefined`), an empty-string title is stored as such, and the
erased state is persisted (a write occurs). -/
theorem C10_update_erases_fields (pid : Nat) (nowISO : String) (posts : List Post)
    (h : ∃ p ∈ posts, p.id = pid) :
    ∃ i old, posts[i]? = some old ∧ old.id = pid
      ∧ (updatePost pid ⟨none, none⟩ nowISO posts).posts
          = posts.set i ⟨old.id, none, none, old.createdAt, some nowISO⟩
      ∧ (updatePost pid ⟨none, none⟩ nowISO posts).effs = [.readE, .writeE]
      ∧ (updatePost pid ⟨some "", none⟩ nowISO posts).posts
          = posts.set i ⟨old.id, some "", none, old.createdAt, some nowISO⟩
      ∧ (updatePost pid ⟨some "", none⟩ nowISO posts).effs = [.readE, .writeE] := by
  obtain ⟨i, old, h1, h2, _h3, h4⟩ := updateInList_spec h
  refine ⟨i, old, h1, h2, ?_, ?_, ?_, ?_⟩
  · simp only [updatePost, h4 ⟨none, none⟩ nowISO, applyUpdate]
  · simp only [updatePost, h4 ⟨none, none⟩ nowISO]
  · simp only [updatePost, h4 ⟨some "", none⟩ nowISO, applyUpdate]
  · simp only [updatePost, h4 ⟨some "", none⟩ nowISO]

/-- Witness for C10 at a concrete input. -/
theorem C10_witness :
    (updatePost 100 ⟨none, none⟩ "2024-07-01T00:00:00.000Z" [samplePost]).posts
      = [⟨100, none, none, "2024-01-01T00:00:00.000Z", some "2024-07-01T00:00:00.000Z"⟩] := by
  have h := C10_update_erases_fields 100 "2024-07-01T00:00:00.000Z" [samplePost]
    ⟨samplePost, by decide⟩
  decide

/-- C3: login issues the signed admin token expiring 24 hours (86400000 ms)
later exactly when the password equals the fixed admin secret; a wrong
password yields 401 `{msg:"密码错误"}` and no token; the issued token,
sent as `Bearer <token>`, passes `authMiddleware` before it expires. -/
theorem C3_login_token (pw : Option String) (now checkNow : Nat)
    (hexp : checkNow < now + 86400000) :
    (login pw now = ⟨200, some (.tokenObj (signAdminToken JWT_SECRET (now + 86400000)))⟩
      ↔ pw = some ADMIN_PASSWORD)
    ∧ (pw ≠ some ADMIN_PASSWORD → login pw now = ⟨401, some (.msgObj "密码错误")⟩)
    ∧ authMiddleware (some ("Bearer " ++ signAdminToken JWT_SECRET (now + 86400000))) checkNow
        = none := by
  refine ⟨⟨?_, ?_⟩, ?_, authMiddleware_bearer_token _ _ hexp⟩
  · intro hl
    by_contra hne
    rw [login, if_pos hne] at hl
    simp at hl
  · intro hpw
    rw [login, if_neg (by simp [hpw])]
  · intro hne
    rw [login, if_pos hne]

/-- Witness for C3 at a concrete input. -/
theorem C3_witness :
    (login (some "666") 0
        = ⟨200, some (.tokenObj (signAdminToken JWT_SECRET (0 + 86400000)))⟩
      ↔ some "666" = some ADMIN_PASSWORD)
    ∧ (some "666" ≠ some ADMIN_PASSWORD →
        login (some "666") 0 = ⟨401, some (.msgObj "密码错误")⟩)
    ∧ authMiddleware (some ("Bearer " ++ signAdminToken JWT_SECRET (0 + 86400000))) 86399999
        = none :=
  C3_login_token (some "666") 0 86399999 (by decide)

/-- C9: `authMiddleware` does not require the `Bearer ` prefix: the header
is processed by removing only the first occurrence of the literal
`"Bearer "` (a second occurrence survives), a raw valid token with no
prefix at all is accepted, and a lowercase `"bearer "` prefix is not
removed, so the verification fails with 401 `{msg:"登录失效"}`. -/
theorem C9_auth_no_bearer_required (s : String) (exp now : Nat) (hexp : now < exp) :
    String.mk (stripBearerFirst ("Bearer " ++ s).data) = s
    ∧ String.mk (stripBearerFirst "Bearer Bearer x".data) = "Bearer x"
    ∧ authMiddleware (some (signAdminToken JWT_SECRET exp)) now = none
    ∧ authMiddleware (some ("bearer " ++ signAdminToken JWT_SECRET exp)) now
        = some ⟨401, some (.msgObj "登录失效")⟩ := by
  refine ⟨?_, by decide, authMiddleware_raw_token exp now hexp, ?_⟩
  · rw [String.data_append, show "Bearer ".data = BEARER_CHARS from rfl,
      stripBearerFirst_bearer_append]
  · have hdata : ("bearer " ++ signAdminToken JWT_SECRET exp).data
        = 'b' :: ("earer ".data ++ (signAdminToken JWT_SECRET exp).data) := by
      rw [String.data_append]
      rfl
    have hnoB : 'B' ∉ ("bearer " ++ signAdminToken JWT_SECRET exp).data := by
      rw [hdata]
      intro hmem
      rcases List.mem_cons.mp hmem with hB | hmem2
      · exact absurd hB (by decide)
      · rcases List.mem_append.mp hmem2 with h1 | h2
        · revert h1
          decide
        · exact signAdminToken_no_B exp h2
    have hstrip : stripBearerFirst ("bearer " ++ signAdminToken JWT_SECRET exp).data
        = ("bearer " ++ signAdminToken JWT_SECRET exp).data :=
      stripBearerFirst_of_not_B hnoB
    have hne : ("bearer " ++ signAdminToken JWT_SECRET exp) ≠ "" := by
      intro hE
      have hcons : ("bearer " ++ signAdminToken JWT_SECRET exp).data = [] := by rw [hE]
      rw [hdata] at hcons
      cases hcons
    have hver : verifyToken JWT_SECRET ("bearer " ++ signAdminToken JWT_SECRET exp) now
        = false :=
      verifyToken_head_ne _ now 'b' _ hdata (by decide)
    simp only [authMiddleware, hstrip]
    rw [show String.mk ("bearer " ++ signAdminToken JWT_SECRET exp).data
      = "bearer " ++ signAdminToken JWT_SECRET exp from rfl]
    rw [if_neg hne, hver]
    simp

/-- Witness for C9 at a concrete input. -/
theorem C9_witness :
    String.mk (stripBearerFirst ("Bearer " ++ "t").data) = "t"
    ∧ String.mk (stripBearerFirst "Bearer Bearer x".data) = "Bearer x"
    ∧ authMiddleware (some (signAdminToken JWT_SECRET 1)) 0 = none
    ∧ authMiddleware (some ("bearer " ++ signAdminToken JWT_SECRET 1)) 0
        = some ⟨401, some (.msgObj "登录失效")⟩ :=
  C9_auth_no_bearer_required "t" 1 0 (by decide)

/-- C2 counterexample: the NotFound response of `GET /api/posts/:id` is a
404 whose body is empty (`res.status(404).end()`), not a `{msg: string}`
JSON object, refuting the claim at the concrete input id 5 against a
store holding only `samplePost` (id 100). -/
theorem C2_counterexample :
    (getPost 5 [samplePost]).resp.status = 404
    ∧ (getPost 5 [samplePost]).resp.body = none := by
  decide

/-- C2 (amended): ValidationError 400 on create, Unauthorized 401 on login
and on the auth middleware, and the unmatched-route 404 carry a
`{msg: string}` JSON body; but NotFound 404 on get/update and BadRequest
400 on upload return their 4xx status with an empty body. -/
theorem C2_amended_error_bodies :
    (∀ now nowISO body posts, titleFalsy body.title = true →
      (createPost now nowISO body posts).resp = ⟨400, some (.msgObj "缺少标题")⟩)
    ∧ (∀ pw now, pw ≠ some ADMIN_PASSWORD → login pw now = ⟨401, some (.msgObj "密码错误")⟩)
    ∧ (∀ h now r, authMiddleware h now = some r →
        r.status = 401
          ∧ (r.body = some (.msgObj "未登录") ∨ r.body = some (.msgObj "登录失效")))
    ∧ notFoundHandler = ⟨404, some (.msgObj "API Not Found")⟩
    ∧ (∀ pid posts, (∀ p ∈ posts, p.id ≠ pid) → (getPost pid posts).resp = ⟨404, none⟩)
    ∧ (∀ pid body nowISO posts, (∀ p ∈ posts, p.id ≠ pid) →
        (updatePost pid body nowISO posts).resp = ⟨404, none⟩)
    ∧ (∀ now r, uploadHandler none now r = ⟨400, none⟩) := by
  refine ⟨?_, ?_, ?_, rfl, ?_, ?_, fun now r => rfl⟩
  · intro now nowISO body posts h
    simp [createPost, h]
  · intro pw now hpw
    rw [login, if_pos hpw]
  · intro h now r hr
    cases h with
    | none =>
      simp only [authMiddleware, Option.some.injEq] at hr
      subst hr
      exact ⟨rfl, Or.inl rfl⟩
    | some s =>
      simp only [authMiddleware] at hr
      by_cases h1 : String.mk (stripBearerFirst s.data) = ""
      · rw [if_pos h1] at hr
        simp only [Option.some.injEq] at hr
        subst hr
        exact ⟨rfl, Or.inl rfl⟩
      · rw [if_neg h1] at hr
        by_cases h2 : verifyToken JWT_SECRET (String.mk (stripBearerFirst s.data)) now = true
        · rw [if_pos h2] at hr
          cases hr
        · rw [if_neg h2] at hr
          simp only [Option.some.injEq] at hr
          subst hr
          exact ⟨rfl, Or.inr rfl⟩
  · intro pid posts hnone
    have hfind : posts.find? (fun p => p.id == pid) = none := by
      rw [List.find?_eq_none]
      intro p hp
      simp [hnone p hp]
    simp [getPost, hfind]
  · intro pid body nowISO posts hnone
    simp [updatePost, updateInList_eq_none hnone]

/-- Witness for the amended C2 at a concrete input. -/
theorem C2_witness :
    login (some "wrong") 0 = ⟨401, some (.msgObj "密码错误")⟩ :=
  C2_amended_error_bodies.2.1 (some "wrong") 0 (by decide)

theorem hexDigitChar_ok : ∀ d, d < 16 →
    ((hexDigitChar d).isDigit || ('a' ≤ hexDigitChar d && hexDigitChar d ≤ 'f')) = true := by
  decide

/-- C8 counterexample: with `Date.now() = 5`, `Math.random() = 0.5`
(mantissa `2 ^ 51`) and original name `"a.png"`, the stored name is
`"5-8.png"`, whose random component is the single hex digit `"8"` — not a
64-bit (16-hex-digit) hex string as claimed. -/
theorem C8_counterexample :
    uploadFilename 5 (2 ^ 51) "a.png" = "5-" ++ "8" ++ ".png"
    ∧ String.mk (fracHex (2 ^ 51)) = "8"
    ∧ ¬ specRandomHex64 "8" := by
  refine ⟨by decide, by decide, ?_⟩
  unfold specRandomHex64
  decide

/-- C8 (amended): upload stores the file under
`<currentTimeMillis>-<random hex><original-extension>` and returns
`{url, filename}` where `url` is the stored name prefixed with
`/uploads/` and `filename` is the original filename; the random component
is the hexadecimal fraction of the 52-bit-mantissa double produced by
`Math.random()` — at most 13 hex digits, not 16. -/
theorem C8_amended_upload (now r : Nat) (f : UploadedFile) (_hr : r < 2 ^ 52) :
    uploadHandler (some f) now r
      = ⟨200, some (.uploadObj ("/uploads/" ++ uploadFilename now r f.originalname)
          f.originalname)⟩
    ∧ uploadFilename now r f.originalname
        = toString now ++ "-" ++ String.mk (fracHex r) ++ extname f.originalname
    ∧ (fracHex r).length ≤ 13
    ∧ (∀ c ∈ fracHex r, (c.isDigit || ('a' ≤ c && c ≤ 'f')) = true) := by
  refine ⟨rfl, rfl, ?_, ?_⟩
  · simp only [fracHex, List.length_reverse]
    calc ((hex13 r).reverse.dropWhile (fun c => c == '0')).length
        ≤ (hex13 r).reverse.length := (List.dropWhile_sublist _).length_le
      _ = 13 := by simp [hex13]
  · intro c hc
    simp only [fracHex, List.mem_reverse] at hc
    have hc2 : c ∈ (hex13 r).reverse := (List.dropWhile_sublist _).subset hc
    rw [List.mem_reverse] at hc2
    simp only [hex13, List.mem_map, List.mem_range] at hc2
    obtain ⟨j, _hj, hcj⟩ := hc2
    rw [← hcj]
    exact hexDigitChar_ok _ (Nat.mod_lt _ (by decide))

/-- Witness for the amended C8 at a concrete input. -/
theorem C8_witness : (fracHex (2 ^ 51)).length ≤ 13 :=
  (C8_amended_upload 5 (2 ^ 51) ⟨"a.png"⟩ (by decide)).2.2.1
